import Mathlib

/-!
Verification of the text-to-sql frontend client (`src/frontend/src`) and of
the spec's pipeline/approval state machine.

The TypeScript sources are embedded shallowly: JavaScript truthiness on
strings (`s || d` falls back when `s` is `undefined` or `""`) is captured by
`jsOrStr`; `x || null` on an optional string by `jsStrOrNull`; JavaScript
arrays are truthy even when empty, so `arr || d` on an optional array keeps
any present array (`Option.getD`).
-/

namespace TextToSql

/-- JS `o || d` on a string-valued field: a present, non-empty string wins,
otherwise the default. -/
def jsOrStr (o : Option String) (d : String) : String :=
  match o with
  | some s => if s = "" then d else s
  | none => d

/-- JS `o || null` on a string-valued field: `undefined` and `""` become null. -/
def jsStrOrNull (o : Option String) : Option String :=
  match o with
  | some s => if s = "" then none else some s
  | none => none

/-! ## `lib/types.ts` — `ApprovalStatus` -/

/-- The client's `ApprovalStatus` string-literal union (`types.ts` lines 3–8). -/
inductive ApprovalStatus where
  | pending
  | approved
  | rejected
  | executed
  | failed
deriving DecidableEq, Repr

/-- The string each `ApprovalStatus` member denotes. -/
def ApprovalStatus.toStr : ApprovalStatus → String
  | .pending => "pending"
  | .approved => "approved"
  | .rejected => "rejected"
  | .executed => "executed"
  | .failed => "failed"

/-- All members of the `ApprovalStatus` union, in the order of `types.ts`. -/
def allApprovalStatuses : List ApprovalStatus :=
  [.pending, .approved, .rejected, .executed, .failed]

/-! ## `lib/types.ts` — `SSEEventType` -/

/-- The client's `SSEEventType` string-literal union (`types.ts` lines 51–75),
constructors in source order. -/
inductive SSEEventType where
  | schema_discovery_started
  | schema_discovered
  | classifying_query
  | query_classified
  | llm_generation_started
  | sql_generated
  | answer_generated
  | validation_passed
  | validation_failed
  | query_execution_started
  | query_executed
  | query_execution_failed
  | self_correction_triggered
  | planning_analysis
  | analysis_plan_created
  | plan_step_started
  | plan_step_sql_generated
  | plan_step_executed
  | plan_step_failed
  | analysis_synthesis_started
  | analysis_complete
  | analysis_validation_warning
  | analysis_validation_passed
  | done
deriving DecidableEq, Repr

/-- The wire name of each `SSEEventType` member. -/
def SSEEventType.name : SSEEventType → String
  | .schema_discovery_started => "schema_discovery_started"
  | .schema_discovered => "schema_discovered"
  | .classifying_query => "classifying_query"
  | .query_classified => "query_classified"
  | .llm_generation_started => "llm_generation_started"
  | .sql_generated => "sql_generated"
  | .answer_generated => "answer_generated"
  | .validation_passed => "validation_passed"
  | .validation_failed => "validation_failed"
  | .query_execution_started => "query_execution_started"
  | .query_executed => "query_executed"
  | .query_execution_failed => "query_execution_failed"
  | .self_correction_triggered => "self_correction_triggered"
  | .planning_analysis => "planning_analysis"
  | .analysis_plan_created => "analysis_plan_created"
  | .plan_step_started => "plan_step_started"
  | .plan_step_sql_generated => "plan_step_sql_generated"
  | .plan_step_executed => "plan_step_executed"
  | .plan_step_failed => "plan_step_failed"
  | .analysis_synthesis_started => "analysis_synthesis_started"
  | .analysis_complete => "analysis_complete"
  | .analysis_validation_warning => "analysis_validation_warning"
  | .analysis_validation_passed => "analysis_validation_passed"
  | .done => "done"

/-- All members of the `SSEEventType` union, in the order of `types.ts`. -/
def allSSEEventTypes : List SSEEventType :=
  [.schema_discovery_started, .schema_discovered, .classifying_query,
   .query_classified, .llm_generation_started, .sql_generated,
   .answer_generated, .validation_passed, .validation_failed,
   .query_execution_started, .query_executed, .query_execution_failed,
   .self_correction_triggered, .planning_analysis, .analysis_plan_created,
   .plan_step_started, .plan_step_sql_generated, .plan_step_executed,
   .plan_step_failed, .analysis_synthesis_started, .analysis_complete,
   .analysis_validation_warning, .analysis_validation_passed, .done]

/-- The spec §6 canonical event set, in the spec's order. -/
def specCanonicalEvents : List String :=
  ["schema_discovery_started", "schema_discovered", "classifying_query",
   "query_classified", "llm_generation_started", "sql_generated",
   "validation_passed", "validation_failed", "query_execution_started",
   "query_executed", "query_execution_failed", "self_correction_triggered",
   "answer_generated", "planning_analysis", "analysis_plan_created",
   "plan_step_started", "plan_step_sql_generated", "plan_step_executed",
   "plan_step_failed", "analysis_synthesis_started", "analysis_complete",
   "analysis_validation_warning", "analysis_validation_passed", "done"]

/-! ## `lib/constants.ts` — `EVENT_META` -/

/-- One `EVENT_META` entry: label, icon name, stepper visibility. -/
structure EventMeta where
  label : String
  icon : String
  visible : Bool
deriving DecidableEq, Repr

/-- `EVENT_META` (`constants.ts` lines 10–38) as an association list, keys in
source order. -/
def EVENT_META : List (String × EventMeta) :=
  [("schema_discovery_started", ⟨"Discovering schema", "search", false⟩),
   ("classifying_query", ⟨"Classifying query", "brain", false⟩),
   ("query_classified", ⟨"Query classified", "check", false⟩),
   ("llm_generation_started", ⟨"Generating SQL", "code", false⟩),
   ("validation_passed", ⟨"Validation passed", "check", false⟩),
   ("query_execution_started", ⟨"Executing query", "play", false⟩),
   ("planning_analysis", ⟨"Planning analysis", "list", false⟩),
   ("plan_step_sql_generated", ⟨"Step SQL generated", "code", false⟩),
   ("analysis_synthesis_started", ⟨"Synthesizing results", "sparkles", false⟩),
   ("analysis_validation_passed", ⟨"Quality check passed", "check", false⟩),
   ("done", ⟨"Done", "check", false⟩),
   ("schema_discovered", ⟨"Loaded schema", "search", true⟩),
   ("sql_generated", ⟨"Generated SQL", "code", true⟩),
   ("query_executed", ⟨"Query executed", "check", true⟩),
   ("answer_generated", ⟨"Answer ready", "sparkles", true⟩),
   ("validation_failed", ⟨"Validation failed", "alert", true⟩),
   ("query_execution_failed", ⟨"Execution failed", "alert", true⟩),
   ("self_correction_triggered", ⟨"Self-correcting", "zap", true⟩),
   ("analysis_plan_created", ⟨"Analysis plan ready", "list", true⟩),
   ("plan_step_started", ⟨"Running analysis step", "play", true⟩),
   ("plan_step_executed", ⟨"Step completed", "check", true⟩),
   ("plan_step_failed", ⟨"Step failed", "alert", true⟩),
   ("analysis_complete", ⟨"Analysis complete", "sparkles", true⟩),
   ("analysis_validation_warning", ⟨"Quality check warning", "alert", true⟩)]

/-! ## `lib/api.ts` — `approveQuery` -/

/-- The JSON body `{approved, modified_sql}` that `approveQuery` stringifies:
exactly these two fields. -/
structure ApproveBody where
  approved : Bool
  modified_sql : Option String
deriving DecidableEq, Repr

/-- The HTTP request `approveQuery` issues via `fetchJSON`. -/
structure ApproveRequest where
  method : String
  url : String
  body : ApproveBody
deriving DecidableEq, Repr

/-- `approveQuery` (`api.ts` lines 30–43): POST to `/api/approve/{queryId}`
with body `{approved, modified_sql: modifiedSql || null}`. -/
def approveQuery (queryId : String) (approved : Bool)
    (modifiedSql : Option String) : ApproveRequest :=
  { method := "POST"
    url := "/api" ++ "/approve/" ++ queryId
    body := { approved := approved, modified_sql := jsStrOrNull modifiedSql } }

/-! ## `hooks/use-sse-stream.ts` — `truncateSQL` -/

/-- Collapse every run of whitespace characters to a single space
(`replace(/\s+/g, " ")`); `inWs` records whether the previous character was
part of a whitespace run already rewritten to one space. -/
def collapseWsAux (inWs : Bool) : List Char → List Char
  | [] => []
  | c :: rest =>
    if c.isWhitespace then
      if inWs then collapseWsAux true rest
      else ' ' :: collapseWsAux true rest
    else c :: collapseWsAux false rest

/-- JS `replace(/\s+/g, " ")` on a character list. -/
def collapseWs (l : List Char) : List Char :=
  collapseWsAux false l

/-- JS `String.prototype.trim`: drop whitespace from both ends. -/
def trimChars (l : List Char) : List Char :=
  ((l.dropWhile Char.isWhitespace).reverse.dropWhile Char.isWhitespace).reverse

/-- JS `String.prototype.trim` on a string. -/
def jsTrim (s : String) : String :=
  String.mk (trimChars s.data)

/-! ## `components/approval/approval-dialog.tsx` — `handleApprove` -/

/-- The `modified` local of `handleApprove`: the edited SQL when it differs
from the original after trimming, `undefined` otherwise. -/
def handleApproveModified (editedSql sql : String) : Option String :=
  if jsTrim editedSql ≠ jsTrim sql then some editedSql else none

/-- The request the dialog's approve button issues:
`approveQuery(queryId, true, modified)`. -/
def handleApproveRequest (queryId editedSql sql : String) : ApproveRequest :=
  approveQuery queryId true (handleApproveModified editedSql sql)

/-- `truncateSQL` (`use-sse-stream.ts` lines 82–86): falsy input gives
`undefined`; otherwise trim, collapse whitespace runs, and cut to 77 chars
plus `"..."` when longer than 80. -/
def truncateSQL (sql : Option String) : Option String :=
  match sql with
  | none => none
  | some s =>
    if s = "" then none
    else
      let trimmed := String.mk (collapseWs (trimChars s.data))
      some (if trimmed.length > 80
            then String.mk (trimmed.data.take 77 ++ ['.', '.', '.'])
            else trimmed)

/-! ## `hooks/use-sse-stream.ts` — event data, accumulator, final response -/

/-- A result row / analysis-step record: a JSON object, modelled as an
association list of scalar strings. -/
abbrev Row := List (String × String)

/-- The JSON payload of one SSE event; absent fields are `none`
(a failed `JSON.parse` yields the all-`none` payload `{}`). -/
structure EventData where
  sql : Option String := none
  answer : Option String := none
  result : Option (List Row) := none
  errors : Option (List String) := none
  warnings : Option (List String) := none
  query_type : Option String := none
  error : Option String := none
  query_id : Option String := none
  steps : Option (List Row) := none
  description : Option String := none
  table_count : Option Nat := none
  row_count : Option Nat := none
  step_count : Option Nat := none
deriving DecidableEq, Repr

/-- An SSE event as delivered to the hook: its type and parsed payload. -/
abbrev Event := SSEEventType × EventData

/-- The accumulated locals of `startStream` (`use-sse-stream.ts` lines
114–122), with their initial values. -/
structure Acc where
  sql : String := ""
  answer : String := ""
  result : Option (List Row) := none
  validationErrors : List String := []
  queryId : String := ""
  approvalStatus : String := "executed"
  queryType : String := "simple"
  error : Option String := none
  analysisPlan : Option (List Row) := none
deriving DecidableEq, Repr

/-- One non-`done` event's effect on the accumulated locals
(`use-sse-stream.ts` lines 182–208). -/
def streamStep (a : Acc) (ev : Event) : Acc :=
  let t := ev.1
  let data := ev.2
  let a := if t = .sql_generated ∨ t = .plan_step_sql_generated then
      { a with sql := jsOrStr data.sql a.sql } else a
  let a := if t = .answer_generated ∨ t = .analysis_complete then
      { a with answer := jsOrStr data.answer a.answer } else a
  let a := if t = .query_executed ∨ t = .plan_step_executed then
      { a with result := match data.result with
                         | some r => some r
                         | none => a.result } else a
  let a := if t = .validation_failed then
      { a with validationErrors := data.errors.getD [],
               approvalStatus := "pending" } else a
  let a := if t = .query_classified then
      { a with queryType := jsOrStr data.query_type "simple" } else a
  let a := if t = .query_execution_failed then
      { a with error := jsStrOrNull data.error,
               approvalStatus := "failed" } else a
  let a := match data.query_id with
           | some q => if q = "" then a else { a with queryId := q }
           | none => a
  let a := if t = .analysis_plan_created then
      { a with analysisPlan := data.steps } else a
  a

/-- The parsed payload of the terminating `done` event; absent fields (and,
for `result`, a JSON `null`) are `none`. -/
structure DoneData where
  query_id : Option String := none
  generated_sql : Option String := none
  validation_errors : Option (List String) := none
  approval_status : Option String := none
  result : Option (List Row) := none
  answer : Option String := none
  error : Option String := none
  query_type : Option String := none
  analysis_plan : Option (List Row) := none
  analysis_steps : Option (List Row) := none
deriving DecidableEq, Repr

/-- The client's `QueryResponse` record (`types.ts` lines 10–23); the
status/type fields are runtime strings, as the hook's casts are unchecked. -/
structure QueryResponse where
  query_id : String
  question : String
  generated_sql : String
  validation_errors : List String
  approval_status : String
  message : String
  result : Option (List Row)
  answer : Option String
  error : Option String
  query_type : String
  analysis_plan : Option (List Row)
  analysis_steps : Option (List Row)
deriving DecidableEq, Repr

/-- `finalResp` (`use-sse-stream.ts` lines 142–161): the done payload's
fields, falling back to the accumulated locals under JS truthiness. -/
def buildFinal (question : String) (d : DoneData) (a : Acc) : QueryResponse :=
  { query_id := jsOrStr d.query_id a.queryId
    question := question
    generated_sql := jsOrStr d.generated_sql a.sql
    validation_errors := d.validation_errors.getD a.validationErrors
    approval_status := jsOrStr d.approval_status a.approvalStatus
    message := ""
    result := match d.result with
              | some r => some r
              | none => a.result
    answer := jsStrOrNull (some (jsOrStr d.answer a.answer))
    error := match d.error with
             | some s => if s = "" then a.error else some s
             | none => a.error
    query_type := jsOrStr d.query_type a.queryType
    analysis_plan := match d.analysis_plan with
                     | some p => some p
                     | none => a.analysisPlan
    analysis_steps := d.analysis_steps }

/-! ## `hooks/use-sse-stream.ts` — pipeline steps and hook state -/

/-- The client's `StepStatus` union (`types.ts` line 77). -/
inductive StepStatus where
  | active
  | completed
  | error
deriving DecidableEq, Repr

/-- `statusForEvent` (`use-sse-stream.ts` lines 20–42). -/
def statusForEvent (t : SSEEventType) : StepStatus :=
  let errorEvents : List SSEEventType :=
    [.validation_failed, .query_execution_failed, .plan_step_failed,
     .analysis_validation_warning]
  if t ∈ errorEvents then .error
  else
    let activeEvents : List SSEEventType :=
      [.schema_discovery_started, .classifying_query, .llm_generation_started,
       .query_execution_started, .planning_analysis, .plan_step_started,
       .plan_step_sql_generated, .analysis_synthesis_started]
    if t ∈ activeEvents then .active else .completed

/-- Rendering of a possibly-`undefined` number in a JS template string. -/
def showOptNat : Option Nat → String
  | some n => toString n
  | none => "undefined"

/-- Rendering of a possibly-`undefined` string in a JS template string. -/
def showOptStr : Option String → String
  | some s => s
  | none => "undefined"

/-- `detailForEvent` (`use-sse-stream.ts` lines 44–80). -/
def detailForEvent (t : SSEEventType) (data : EventData) : Option String :=
  match t with
  | .schema_discovered => some (showOptNat data.table_count ++ " tables found")
  | .query_classified => some ("Type: " ++ showOptStr data.query_type)
  | .sql_generated => truncateSQL data.sql
  | .query_executed => some (showOptNat data.row_count ++ " rows returned")
  | .validation_failed => data.errors.map (String.intercalate ", ")
  | .query_execution_failed => data.error
  | .self_correction_triggered => data.warnings.map (String.intercalate ", ")
  | .analysis_plan_created => some (showOptNat data.step_count ++ " steps planned")
  | .plan_step_started => data.description
  | .plan_step_sql_generated => truncateSQL data.sql
  | .plan_step_executed => some (showOptNat data.row_count ++ " rows")
  | .plan_step_failed => data.error
  | .analysis_complete => some "Insights ready"
  | .analysis_validation_warning => data.warnings.map (String.intercalate ", ")
  | _ => none

/-- A rendered pipeline step (`types.ts` lines 79–85). -/
structure PipelineStep where
  event : SSEEventType
  label : String
  status : StepStatus
  detail : Option String
  data : EventData
deriving DecidableEq, Repr

/-- One non-`done` event's effect on the step list (`use-sse-stream.ts`
lines 210–235): build the step from `EVENT_META`, then either replace a
trailing active step (when the new step is not active) or append. -/
def stepsUpdate (steps : List PipelineStep) (ev : Event) : List PipelineStep :=
  match EVENT_META.lookup ev.1.name with
  | none => steps
  | some meta =>
    let st : PipelineStep :=
      { event := ev.1
        label := meta.label
        status := statusForEvent ev.1
        detail := detailForEvent ev.1 ev.2
        data := ev.2 }
    match steps.getLast? with
    | some last =>
      if last.status = .active ∧ st.status ≠ .active
      then steps.dropLast ++ [st]
      else steps ++ [st]
    | none => steps ++ [st]

/-- The hook's state (`use-sse-stream.ts` lines 13–18). -/
structure SSEStreamState where
  pipelineSteps : List PipelineStep
  finalResponse : Option QueryResponse
  isStreaming : Bool
  error : Option String
deriving DecidableEq, Repr

/-- The hook's state after `startStream` delivers the events `es` and then
the terminating `done` event with payload `d`: steps accumulate per event,
the `done` branch (lines 130–172) builds `finalResp`, completes any
remaining active steps, and stops streaming. -/
def processStream (question : String) (es : List Event) (d : DoneData) :
    SSEStreamState :=
  let steps := es.foldl stepsUpdate []
  let acc := es.foldl streamStep {}
  { pipelineSteps := steps.map fun s =>
      if s.status = .active then { s with status := .completed } else s
    finalResponse := some (buildFinal question d acc)
    isStreaming := false
    error := none }

/-! ## `components/chat/chat-page.tsx` — `handleApprovalResult` -/

/-- The backend's approval response (`types.ts` lines 25–31). -/
structure ApprovalResponse where
  query_id : String
  approval_status : String
  result : Option (List Row)
  answer : Option String
  error : Option String
deriving DecidableEq, Repr

/-- The `QueryResponse` that `handleApprovalResult` (`chat-page.tsx` lines
74–95) builds from an `ApprovalResponse` and the dialog's SQL. -/
def handleApprovalResult (sql : String) (r : ApprovalResponse) : QueryResponse :=
  { query_id := r.query_id
    question := ""
    generated_sql := sql
    validation_errors := []
    approval_status := r.approval_status
    message := ""
    result := r.result
    answer := r.answer
    error := r.error
    query_type := "simple"
    analysis_plan := none
    analysis_steps := none }

/-! ## Backend pipeline (spec §4.2, §4.3) -/

namespace Backend

/-- Modelled from the spec (§4.2): comment stripping before tokenization.
The backend sources are not in the repository; mode 0 copies input, mode 1
skips a `--` line comment, mode 2 skips a `/* ... */` block comment. -/
def stripCommentsAux : List Char → Nat → List Char
  | [], _ => []
  | '-' :: '-' :: rest, 0 => stripCommentsAux rest 1
  | '/' :: '*' :: rest, 0 => stripCommentsAux rest 2
  | c :: rest, 0 => c :: stripCommentsAux rest 0
  | '\n' :: rest, 1 => '\n' :: stripCommentsAux rest 0
  | _ :: rest, 1 => stripCommentsAux rest 1
  | '*' :: '/' :: rest, 2 => ' ' :: stripCommentsAux rest 0
  | _ :: rest, 2 => stripCommentsAux rest 2
  | _ :: rest, _ => stripCommentsAux rest 0

/-- Modelled from the spec (§4.2): strip SQL comments. -/
def stripComments (s : String) : String :=
  String.mk (stripCommentsAux s.data 0)

/-- A SQL identifier/keyword character. -/
def isWordChar (c : Char) : Bool :=
  c.isAlphanum || c = '_'

/-- Modelled from the spec (§4.2): tokenize into uppercased word tokens;
`acc` holds the pending word, reversed. -/
def tokensAux : List Char → List Char → List String
  | [], [] => []
  | [], acc => [String.mk (acc.reverse.map Char.toUpper)]
  | c :: rest, acc =>
    if isWordChar c then tokensAux rest (c :: acc)
    else if acc = [] then tokensAux rest []
    else String.mk (acc.reverse.map Char.toUpper) :: tokensAux rest []

/-- Modelled from the spec (§4.2): the word tokens of a SQL string. -/
def sqlTokens (s : String) : List String :=
  tokensAux s.data []

/-- Split a character list at semicolons; `acc` holds the current segment,
reversed. -/
def splitSemiAux : List Char → List Char → List (List Char)
  | [], acc => [acc.reverse]
  | c :: rest, acc =>
    if c = ';' then acc.reverse :: splitSemiAux rest []
    else splitSemiAux rest (c :: acc)

/-- Modelled from the spec (§4.2): the forbidden-keyword set
"(INSERT, UPDATE, DELETE, DROP, ALTER, TRUNCATE, GRANT, etc.)". -/
def forbiddenKeywords : List String :=
  ["INSERT", "UPDATE", "DELETE", "DROP", "ALTER", "TRUNCATE", "GRANT",
   "REVOKE", "CREATE"]

/-- Modelled from the spec (§4.2): `ReadOnlyGuard.check(sql)` returns
violation strings (empty means safe): strip comments, reject
multi-statement input, scan tokens for forbidden keywords, and accept only
statements whose leading keyword is SELECT or WITH. -/
def check (sql : String) : List String :=
  let cleaned := stripComments sql
  let toks := sqlTokens cleaned
  let parts := (splitSemiAux cleaned.data []).filter
    fun p => ¬ (p.all Char.isWhitespace)
  let multi := if parts.length > 1 then ["multiple statements"] else []
  let forb := (toks.filter (· ∈ forbiddenKeywords)).map
    fun k => "forbidden keyword: " ++ k
  let lead :=
    match toks with
    | [] => ["empty statement"]
    | t :: _ =>
      if t = "SELECT" ∨ t = "WITH" then []
      else ["statement must start with SELECT or WITH"]
  multi ++ forb ++ lead

/-- Modelled from the spec (§4.3, §4.4): the phase of one query run.
`generated` holds freshly generated SQL awaiting the guard; `readyToExecute`
holds SQL that may reach the database execution path (guard passed, or a
human approved it); `pending` is a parked run awaiting resume. -/
inductive PState where
  | generated (sql : String)
  | readyToExecute (sql : String)
  | pending (sql : String) (violations : List String)
  | executed (sql : String)
  | failed
  | rejected
deriving DecidableEq, Repr

/-- Modelled from the spec (§4.3, §6): the observable pipeline actions —
running the guard, resuming a pending run with
`{approved: bool, modified_sql: string?}`, and invoking the database
execution path on a SQL string. -/
inductive PAction where
  | validate
  | resume (approved : Bool) (modifiedSql : Option String)
  | execute (sql : String)
deriving DecidableEq, Repr

/-- Modelled from the spec (§4.3, §4.4): the pipeline's transition relation.
Clean SQL executes; SQL with guard violations parks as `pending`; a resume
either rejects, approves the parked SQL as-is, or substitutes `modified_sql`,
which is re-validated through the guard before it may execute. -/
inductive PStep : PState → PAction → PState → Prop where
  | validate_pass {sql} :
      check sql = [] →
      PStep (.generated sql) .validate (.readyToExecute sql)
  | validate_fail {sql} :
      check sql ≠ [] →
      PStep (.generated sql) .validate (.pending sql (check sql))
  | reject {sql v m} :
      PStep (.pending sql v) (.resume false m) .rejected
  | approve_plain {sql v} :
      PStep (.pending sql v) (.resume true none) (.readyToExecute sql)
  | approve_modified_pass {sql v m} :
      check m = [] →
      PStep (.pending sql v) (.resume true (some m)) (.readyToExecute m)
  | approve_modified_fail {sql v m} :
      check m ≠ [] →
      PStep (.pending sql v) (.resume true (some m)) (.pending m (check m))
  | execute_ok {sql} :
      PStep (.readyToExecute sql) (.execute sql) (.executed sql)
  | execute_err {sql} :
      PStep (.readyToExecute sql) (.execute sql) .failed

/-- A run: the reflexive-transitive closure of `PStep`, recording the
action trace. -/
inductive Reaches : PState → List PAction → PState → Prop where
  | refl (s : PState) : Reaches s [] s
  | step {s s' s'' a t} : PStep s a s' → Reaches s' t s'' →
      Reaches s (a :: t) s''

end Backend

/-! # Theorems -/

/-- C3: every value of the client's `ApprovalStatus` type is one of exactly
the five strings `pending`, `approved`, `rejected`, `executed`, `failed`,
and no other value is representable: the type's members are exhausted by
`allApprovalStatuses`, whose denoted strings are exactly those five,
pairwise distinct. -/
theorem approvalStatus_exactly_five_strings :
    (∀ a : ApprovalStatus, a ∈ allApprovalStatuses) ∧
    allApprovalStatuses.map ApprovalStatus.toStr =
      ["pending", "approved", "rejected", "executed", "failed"] ∧
    (allApprovalStatuses.map ApprovalStatus.toStr).Nodup := by
  refine ⟨fun a => ?_, by decide, by decide⟩
  cases a <;> decide

/-- C4: the client's `SSEEventType` union and the key set of `EVENT_META`
are each exactly the spec §6 canonical 24-event set: every spec event is
present and there is no extra event type. -/
theorem sseEventTypes_match_spec_canonical_set :
    (∀ e : SSEEventType, e ∈ allSSEEventTypes) ∧
    (allSSEEventTypes.map SSEEventType.name).Perm specCanonicalEvents ∧
    (EVENT_META.map Prod.fst).Perm specCanonicalEvents ∧
    (allSSEEventTypes.map SSEEventType.name).Perm (EVENT_META.map Prod.fst) ∧
    specCanonicalEvents.Nodup ∧
    (allSSEEventTypes.map SSEEventType.name).Nodup ∧
    (EVENT_META.map Prod.fst).Nodup := by
  refine ⟨fun e => ?_, by decide, by decide, by decide, by decide, by decide,
    by decide⟩
  cases e <;> decide

/-- C2: `approveQuery` issues a POST to `/api/approve/{queryId}` whose body
has exactly the fields `approved` (the given boolean) and `modified_sql`,
the latter equal to the given string when non-empty and null when the
argument is `undefined` or the empty string. -/
theorem approveQuery_request_shape (queryId : String) (approved : Bool)
    (modifiedSql : Option String) :
    (approveQuery queryId approved modifiedSql).method = "POST" ∧
    (approveQuery queryId approved modifiedSql).url = "/api/approve/" ++ queryId ∧
    (approveQuery queryId approved modifiedSql).body.approved = approved ∧
    (modifiedSql = none →
      (approveQuery queryId approved modifiedSql).body.modified_sql = none) ∧
    (modifiedSql = some "" →
      (approveQuery queryId approved modifiedSql).body.modified_sql = none) ∧
    (∀ s, modifiedSql = some s → s ≠ "" →
      (approveQuery queryId approved modifiedSql).body.modified_sql = some s) := by
  refine ⟨rfl, ?_, rfl, ?_, ?_, ?_⟩
  · exact congrArg (· ++ queryId) (by decide)
  · intro h
    simp [approveQuery, jsStrOrNull, h]
  · intro h
    simp [approveQuery, jsStrOrNull, h]
  · intro s h hne
    simp [approveQuery, jsStrOrNull, h, hne]

/-- Witness for C2 at a concrete input: a `modified_sql` of `""` is sent
as null. -/
theorem approveQuery_request_shape_witness :
    (approveQuery "q7" true (some "")).body.modified_sql = none :=
  (approveQuery_request_shape "q7" true (some "")).2.2.2.2.1 rfl

/-- C8: the dialog's approve action sends a `modified_sql` only when the
edited text differs from the original SQL after trimming; an emptied,
unchanged, or merely re-whitespaced textarea yields a null `modified_sql`,
and the request approves. -/
theorem approvalDialog_modified_only_when_edited (queryId editedSql sql : String) :
    ((handleApproveRequest queryId editedSql sql).body.modified_sql ≠ none →
      jsTrim editedSql ≠ jsTrim sql) ∧
    (editedSql = "" →
      (handleApproveRequest queryId editedSql sql).body.modified_sql = none) ∧
    (jsTrim editedSql = jsTrim sql →
      (handleApproveRequest queryId editedSql sql).body.modified_sql = none) ∧
    (handleApproveRequest queryId editedSql sql).body.approved = true := by
  by_cases h : jsTrim editedSql = jsTrim sql
  · refine ⟨?_, ?_, fun _ => ?_, rfl⟩ <;>
      simp [handleApproveRequest, handleApproveModified, approveQuery,
        jsStrOrNull, h]
  · refine ⟨fun _ => h, ?_, fun he => absurd he h, rfl⟩
    intro he
    simp only [handleApproveRequest, handleApproveModified, approveQuery,
      jsStrOrNull, he]
    split_ifs <;> simp

/-- Witness for C8 at a concrete input: approving with only surrounding
whitespace changed sends a null `modified_sql`. -/
theorem approvalDialog_modified_only_when_edited_witness :
    (handleApproveRequest "q1" "  SELECT 1 " "SELECT 1").body.modified_sql = none :=
  (approvalDialog_modified_only_when_edited "q1" "  SELECT 1 " "SELECT 1").2.2.1
    (by decide)

/-- C10: `truncateSQL` maps `undefined` and `""` to `undefined`; otherwise
it trims and collapses internal whitespace runs to single spaces, returns
the collapsed string unchanged when its length is at most 80, and otherwise
returns its first 77 characters followed by `"..."`; every returned string
has length `min (collapsed length) 80` — exactly 80 in the truncating
case. -/
theorem truncateSQL_trim_collapse_cap :
    truncateSQL none = none ∧
    truncateSQL (some "") = none ∧
    ∀ s : String, s ≠ "" →
    ∀ t, t = String.mk (collapseWs (trimChars s.data)) →
      (t.length ≤ 80 → truncateSQL (some s) = some t) ∧
      (t.length > 80 →
        truncateSQL (some s) =
          some (String.mk (t.data.take 77 ++ ['.', '.', '.']))) ∧
      (∀ r, truncateSQL (some s) = some r → r.length = min t.length 80) := by
  refine ⟨rfl, rfl, fun s hs t ht => ?_⟩
  subst ht
  set L := collapseWs (trimChars s.data) with hL
  refine ⟨?_, ?_, ?_⟩
  · intro hle
    simp only [truncateSQL, hs, if_false]
    rw [← hL, if_neg (by omega)]
  · intro hgt
    simp only [truncateSQL, hs, if_false]
    rw [← hL, if_pos hgt]
  · intro r hr
    simp only [truncateSQL, hs, if_false] at hr
    rw [← hL] at hr
    by_cases hgt : (String.mk L).length > 80
    · rw [if_pos hgt] at hr
      have hre := Option.some.inj hr
      subst hre
      have hgt' : L.length > 80 := hgt
      show (L.take 77 ++ ['.', '.', '.']).length = min L.length 80
      simp only [List.length_append, List.length_take, List.length_cons,
        List.length_nil]
      omega
    · rw [if_neg hgt] at hr
      have hre := Option.some.inj hr
      subst hre
      have hle : L.length ≤ 80 := Nat.not_lt.mp hgt
      show L.length = min L.length 80
      omega

/-- Witness for C10 at a concrete input: internal whitespace collapses and
a short string is returned unchanged. -/
theorem truncateSQL_trim_collapse_cap_witness :
    truncateSQL (some "  SELECT   *  FROM   t ") = some "SELECT * FROM t" := by
  have h :=
    (truncateSQL_trim_collapse_cap.2.2 "  SELECT   *  FROM   t " (by decide)
      (String.mk (collapseWs (trimChars "  SELECT   *  FROM   t ".data))) rfl).1
      (by decide)
  rw [h]
  decide

/-- C9: after the hook processes the terminating `done` event, no pipeline
step is still active — every step is an accumulated step, an active one
being replaced by the same step marked completed — streaming has stopped,
and a final response is present. -/
theorem processStream_done_state (q : String) (es : List Event) (d : DoneData)
    (_hdone : ∀ ev ∈ es, ev.1 ≠ SSEEventType.done) :
    (∀ s ∈ (processStream q es d).pipelineSteps, s.status ≠ StepStatus.active) ∧
    (∀ s ∈ (processStream q es d).pipelineSteps,
      s ∈ es.foldl stepsUpdate [] ∨
      ∃ s₀, s₀ ∈ es.foldl stepsUpdate [] ∧ s₀.status = StepStatus.active ∧
        s = { s₀ with status := StepStatus.completed }) ∧
    (processStream q es d).isStreaming = false ∧
    (processStream q es d).finalResponse ≠ none := by
  refine ⟨?_, ?_, rfl, by simp [processStream]⟩
  · intro s hs
    simp only [processStream, List.mem_map] at hs
    obtain ⟨s₀, _, rfl⟩ := hs
    by_cases h : s₀.status = StepStatus.active <;> simp [h]
  · intro s hs
    simp only [processStream, List.mem_map] at hs
    obtain ⟨s₀, hm, rfl⟩ := hs
    by_cases h : s₀.status = StepStatus.active
    · exact Or.inr ⟨s₀, hm, h, by simp [h]⟩
    · exact Or.inl (by simpa [h] using hm)

/-- Witness for C9 at a concrete input: a one-event stream ends with
streaming stopped. -/
theorem processStream_done_state_witness :
    (processStream "q" [(SSEEventType.llm_generation_started, ({} : EventData))]
      {}).isStreaming = false :=
  (processStream_done_state "q"
    [(SSEEventType.llm_generation_started, {})] {} (by decide)).2.2.1

/-! ### Accumulator preservation lemmas for the event fold -/

/-- Only `validation_failed` and `query_execution_failed` touch the
accumulated `approvalStatus` and `validationErrors`. -/
theorem streamStep_preserves_status (a : Acc) (ev : Event)
    (h1 : ev.1 ≠ SSEEventType.validation_failed)
    (h2 : ev.1 ≠ SSEEventType.query_execution_failed) :
    (streamStep a ev).approvalStatus = a.approvalStatus ∧
    (streamStep a ev).validationErrors = a.validationErrors := by
  obtain ⟨t, data⟩ := ev
  simp only at h1 h2
  cases t <;>
    first
    | exact absurd rfl h1
    | exact absurd rfl h2
    | cases hq : data.query_id <;> simp [streamStep, hq] <;> split_ifs <;> simp

/-- Fold form of `streamStep_preserves_status`. -/
theorem foldl_streamStep_preserves_status (l : List Event) (a : Acc)
    (h : ∀ ev ∈ l, ev.1 ≠ SSEEventType.validation_failed ∧
                   ev.1 ≠ SSEEventType.query_execution_failed) :
    (l.foldl streamStep a).approvalStatus = a.approvalStatus ∧
    (l.foldl streamStep a).validationErrors = a.validationErrors := by
  induction l generalizing a with
  | nil => exact ⟨rfl, rfl⟩
  | cons ev tl ih =>
    have hev := h ev (List.mem_cons_self _ _)
    have hstep := streamStep_preserves_status a ev hev.1 hev.2
    have htl := ih (streamStep a ev) fun e he => h e (List.mem_cons_of_mem _ he)
    rw [List.foldl_cons]
    exact ⟨htl.1.trans hstep.1, htl.2.trans hstep.2⟩

/-- A `validation_failed` event sets `approvalStatus` to `"pending"` and
replaces `validationErrors` with the event's `errors` (empty when absent). -/
theorem streamStep_validation_failed (a : Acc) (data : EventData) :
    (streamStep a (SSEEventType.validation_failed, data)).approvalStatus =
      "pending" ∧
    (streamStep a (SSEEventType.validation_failed, data)).validationErrors =
      data.errors.getD [] := by
  cases hq : data.query_id <;> simp [streamStep, hq] <;> split_ifs <;> simp

/-- C5: when a stream delivers a `validation_failed` event with no later
`validation_failed` or `query_execution_failed`, and the `done` payload
carries neither `approval_status` nor `validation_errors`, the final
response is `pending` with the event's errors (empty when it carried
none). -/
theorem sse_validation_failure_yields_pending (q : String) (pre : List Event)
    (vfData : EventData) (post : List Event) (d : DoneData)
    (_hdone : ∀ ev ∈ pre ++ (SSEEventType.validation_failed, vfData) :: post,
      ev.1 ≠ SSEEventType.done)
    (hpost : ∀ ev ∈ post, ev.1 ≠ SSEEventType.validation_failed ∧
                          ev.1 ≠ SSEEventType.query_execution_failed)
    (hstatus : d.approval_status = none)
    (herrs : d.validation_errors = none) :
    (processStream q (pre ++ (SSEEventType.validation_failed, vfData) :: post)
        d).finalResponse.map QueryResponse.approval_status = some "pending" ∧
    (processStream q (pre ++ (SSEEventType.validation_failed, vfData) :: post)
        d).finalResponse.map QueryResponse.validation_errors =
      some (vfData.errors.getD []) := by
  have hacc :
      ((pre ++ (SSEEventType.validation_failed, vfData) :: post).foldl
        streamStep {}).approvalStatus = "pending" ∧
      ((pre ++ (SSEEventType.validation_failed, vfData) :: post).foldl
        streamStep {}).validationErrors = vfData.errors.getD [] := by
    rw [List.foldl_append, List.foldl_cons]
    have hvf := streamStep_validation_failed (pre.foldl streamStep {}) vfData
    have hrest := foldl_streamStep_preserves_status post
      (streamStep (pre.foldl streamStep {})
        (SSEEventType.validation_failed, vfData)) hpost
    exact ⟨hrest.1.trans hvf.1, hrest.2.trans hvf.2⟩
  constructor
  · simp only [processStream, buildFinal, hstatus, jsOrStr]
    rw [hacc.1]
    simp
  · simp only [processStream, buildFinal, herrs, Option.getD_none]
    rw [hacc.2]
    simp

/-- Witness for C5 at a concrete input: a `validation_failed` stream ends
pending with the delivered errors. -/
theorem sse_validation_failure_yields_pending_witness :
    (processStream "q"
      ([] ++ (SSEEventType.validation_failed,
        ({ errors := some ["no such table: nonexistent_table"] } : EventData))
        :: []) {}).finalResponse.map QueryResponse.validation_errors =
      some ["no such table: nonexistent_table"] :=
  (sse_validation_failure_yields_pending "q" []
    { errors := some ["no such table: nonexistent_table"] } [] {}
    (by decide) (by decide) rfl rfl).2

/-- Only `query_execution_failed` touches the accumulated `error`. -/
theorem streamStep_preserves_error (a : Acc) (ev : Event)
    (h : ev.1 ≠ SSEEventType.query_execution_failed) :
    (streamStep a ev).error = a.error := by
  obtain ⟨t, data⟩ := ev
  simp only at h
  cases t <;>
    first
    | exact absurd rfl h
    | cases hq : data.query_id <;> simp [streamStep, hq] <;> split_ifs <;> simp

/-- Fold form of `streamStep_preserves_error`. -/
theorem foldl_streamStep_preserves_error (l : List Event) (a : Acc)
    (h : ∀ ev ∈ l, ev.1 ≠ SSEEventType.query_execution_failed) :
    (l.foldl streamStep a).error = a.error := by
  induction l generalizing a with
  | nil => rfl
  | cons ev tl ih =>
    rw [List.foldl_cons]
    exact (ih (streamStep a ev) fun e he => h e (List.mem_cons_of_mem _ he)).trans
      (streamStep_preserves_error a ev (h ev (List.mem_cons_self _ _)))

/-- A `query_execution_failed` event sets `error` to the event's `error`
(null when absent or empty) and `approvalStatus` to `"failed"`. -/
theorem streamStep_query_execution_failed (a : Acc) (data : EventData) :
    (streamStep a (SSEEventType.query_execution_failed, data)).error =
      jsStrOrNull data.error ∧
    (streamStep a (SSEEventType.query_execution_failed, data)).approvalStatus =
      "failed" := by
  cases hq : data.query_id <;> simp [streamStep, hq] <;> split_ifs <;> simp

/-- C6 counterexample: a stream whose `query_execution_failed` event and
`done` payload carry no `error` field ends with `approval_status`
`"failed"` and a null `error`, so a failed final response need not carry an
error string. -/
theorem sse_failed_without_error_string :
    (processStream "q" [(SSEEventType.query_execution_failed, ({} : EventData))]
        {}).finalResponse.map QueryResponse.approval_status = some "failed" ∧
    (processStream "q" [(SSEEventType.query_execution_failed, ({} : EventData))]
        {}).finalResponse.bind QueryResponse.error = none := by
  decide

/-- C6 amended: a final response with `approval_status` `"failed"` carries a
non-null `error` string provided the failure source supplied one — the
`done` payload's `error` is a non-empty string, or it is absent/empty and
the stream's last `query_execution_failed` event carried a non-empty
`error`. -/
theorem sse_failed_carries_error_when_supplied (q : String) (es : List Event)
    (d : DoneData)
    (_hdone : ∀ ev ∈ es, ev.1 ≠ SSEEventType.done)
    (_hfailed : (processStream q es d).finalResponse.map
      QueryResponse.approval_status = some "failed")
    (hsrc :
      (∃ s, d.error = some s ∧ s ≠ "") ∨
      ((d.error = none ∨ d.error = some "") ∧
        ∃ pre eData post,
          es = pre ++ (SSEEventType.query_execution_failed, eData) :: post ∧
          (∀ ev ∈ post, ev.1 ≠ SSEEventType.query_execution_failed) ∧
          ∃ s, eData.error = some s ∧ s ≠ "")) :
    (processStream q es d).finalResponse.bind QueryResponse.error ≠ none := by
  rcases hsrc with ⟨s, hds, hne⟩ | ⟨hd, pre, eData, post, hes, hpost, s, hes', hne⟩
  · simp [processStream, buildFinal, hds, hne]
  · have hacc : (es.foldl streamStep {}).error = some s := by
      rw [hes, List.foldl_append, List.foldl_cons]
      rw [foldl_streamStep_preserves_error post _ hpost]
      rw [(streamStep_query_execution_failed _ eData).1]
      simp [jsStrOrNull, hes', hne]
    rcases hd with hd | hd <;>
      simp [processStream, buildFinal, hd, hacc]

/-- Witness for C6 amended at a concrete input: a failure whose event
carries `"db timeout"` surfaces it on the final response. -/
theorem sse_failed_carries_error_when_supplied_witness :
    (processStream "q"
      [(SSEEventType.query_execution_failed,
        ({ error := some "db timeout" } : EventData))]
      {}).finalResponse.bind QueryResponse.error ≠ none :=
  sse_failed_carries_error_when_supplied "q"
    [(SSEEventType.query_execution_failed, { error := some "db timeout" })] {}
    (by decide) (by decide)
    (Or.inr ⟨Or.inl rfl,
      [], { error := some "db timeout" }, [], rfl, by simp,
      "db timeout", rfl, by decide⟩)

/-- When every `analysis_plan_created` event carries no `steps`, the
accumulated `analysisPlan` stays null. -/
theorem streamStep_analysisPlan_none (a : Acc) (ev : Event)
    (h : ev.1 = SSEEventType.analysis_plan_created → ev.2.steps = none)
    (ha : a.analysisPlan = none) :
    (streamStep a ev).analysisPlan = none := by
  obtain ⟨t, data⟩ := ev
  simp only at h
  cases t <;>
    first
    | (cases hq : data.query_id <;> simp [streamStep, hq, ha] <;>
        split_ifs <;> simp [ha])
    | (cases hq : data.query_id <;>
        simp [streamStep, hq, ha, h rfl] <;> split_ifs <;> simp [h rfl])

/-- Fold form of `streamStep_analysisPlan_none`. -/
theorem foldl_streamStep_analysisPlan_none (l : List Event) (a : Acc)
    (h : ∀ ev ∈ l, ev.1 = SSEEventType.analysis_plan_created → ev.2.steps = none)
    (ha : a.analysisPlan = none) :
    (l.foldl streamStep a).analysisPlan = none := by
  induction l generalizing a with
  | nil => exact ha
  | cons ev tl ih =>
    rw [List.foldl_cons]
    exact ih (streamStep a ev) (fun e he => h e (List.mem_cons_of_mem _ he))
      (streamStep_analysisPlan_none a ev (h ev (List.mem_cons_self _ _)) ha)

/-- C7 counterexample: a stream that delivers an `analysis_plan_created`
event with steps but no `query_classified` event yields a final response
whose `analysis_plan` is non-null while `query_type` is `"simple"` — the
hook does not enforce the invariant. -/
theorem analysis_plan_on_simple_response :
    (processStream "q"
      [(SSEEventType.analysis_plan_created,
        ({ steps := some [[("description", "count rows")]] } : EventData))]
      {}).finalResponse.bind QueryResponse.analysis_plan ≠ none ∧
    (processStream "q"
      [(SSEEventType.analysis_plan_created,
        ({ steps := some [[("description", "count rows")]] } : EventData))]
      {}).finalResponse.map QueryResponse.query_type = some "simple" := by
  decide

/-- C7 amended: a response built by `handleApprovalResult` always has null
`analysis_plan` and `analysis_steps`, so it satisfies the invariant; a
response assembled by `useSSEStream` satisfies it provided the stream
carries no analysis data (every `analysis_plan_created` event lacks `steps`
and the `done` payload carries neither `analysis_plan` nor
`analysis_steps`) — in general the hook copies these fields from the stream
without enforcing the invariant. -/
theorem analysis_fields_only_when_analytical (sql : String)
    (r : ApprovalResponse) (q : String) (es : List Event) (d : DoneData)
    (_hdone : ∀ ev ∈ es, ev.1 ≠ SSEEventType.done)
    (hsteps : ∀ ev ∈ es,
      ev.1 = SSEEventType.analysis_plan_created → ev.2.steps = none)
    (hplan : d.analysis_plan = none) (hstepsd : d.analysis_steps = none) :
    ((handleApprovalResult sql r).query_type = "analytical" ∨
      ((handleApprovalResult sql r).analysis_plan = none ∧
       (handleApprovalResult sql r).analysis_steps = none)) ∧
    ((processStream q es d).finalResponse.map QueryResponse.query_type =
        some "analytical" ∨
      ((processStream q es d).finalResponse.bind QueryResponse.analysis_plan =
        none ∧
       (processStream q es d).finalResponse.bind QueryResponse.analysis_steps =
        none)) := by
  refine ⟨Or.inr ⟨rfl, rfl⟩, Or.inr ⟨?_, ?_⟩⟩
  · have hacc := foldl_streamStep_analysisPlan_none es {} hsteps rfl
    simp [processStream, buildFinal, hplan, hacc]
  · simp [processStream, buildFinal, hstepsd]

/-- Witness for C7 amended at a concrete input: an analysis-free stream and
an approval response both satisfy the invariant. -/
theorem analysis_fields_only_when_analytical_witness :
    ((handleApprovalResult "SELECT 1"
        ⟨"id1", "executed", none, none, none⟩).query_type = "analytical" ∨
      ((handleApprovalResult "SELECT 1"
          ⟨"id1", "executed", none, none, none⟩).analysis_plan = none ∧
       (handleApprovalResult "SELECT 1"
          ⟨"id1", "executed", none, none, none⟩).analysis_steps = none)) ∧
    ((processStream "q" [(SSEEventType.sql_generated,
        ({ sql := some "SELECT 1" } : EventData))]
        {}).finalResponse.map QueryResponse.query_type = some "analytical" ∨
      ((processStream "q" [(SSEEventType.sql_generated,
          ({ sql := some "SELECT 1" } : EventData))]
          {}).finalResponse.bind QueryResponse.analysis_plan = none ∧
       (processStream "q" [(SSEEventType.sql_generated,
          ({ sql := some "SELECT 1" } : EventData))]
          {}).finalResponse.bind QueryResponse.analysis_steps = none)) :=
  analysis_fields_only_when_analytical "SELECT 1"
    ⟨"id1", "executed", none, none, none⟩ "q"
    [(SSEEventType.sql_generated, { sql := some "SELECT 1" })] {}
    (by decide) (by decide) rfl rfl

namespace Backend

/-- Strengthened induction: along any run, an `execute s` on guard-rejected
SQL is preceded by an approving resume, unless the run already started
ready to execute that SQL. -/
theorem reaches_execute_needs_resume {st : PState} {t : List PAction}
    {sfin : PState} (hrun : Reaches st t sfin) :
    ∀ s t₁ t₂, t = t₁ ++ PAction.execute s :: t₂ → check s ≠ [] →
      (∃ m, PAction.resume true m ∈ t₁) ∨
      (t₁ = [] ∧ st = PState.readyToExecute s) := by
  induction hrun with
  | refl s => intro s' t₁ t₂ h _; exact absurd h (by simp)
  | step hstep hrest ih =>
    intro s t₁ t₂ hsplit hviol
    match t₁, hsplit with
    | [], hsplit =>
      obtain ⟨ha, -⟩ := List.cons.inj hsplit
      subst ha
      cases hstep with
      | execute_ok => exact Or.inr ⟨rfl, rfl⟩
      | execute_err => exact Or.inr ⟨rfl, rfl⟩
    | b :: t₁', hsplit =>
      obtain ⟨hb, htl⟩ := List.cons.inj hsplit
      subst hb
      rcases ih s t₁' t₂ htl hviol with ⟨m, hm⟩ | ⟨ht₁', hst'⟩
      · exact Or.inl ⟨m, List.mem_cons_of_mem _ hm⟩
      · subst ht₁'
        cases hstep with
        | validate_pass hchk =>
          cases hst'
          exact absurd hchk hviol
        | approve_plain =>
          cases hst'
          exact Or.inl ⟨none, List.mem_cons_self _ _⟩
        | approve_modified_pass hchk =>
          cases hst'
          exact Or.inl ⟨some s, List.mem_cons_self _ _⟩
        | validate_fail hchk => exact absurd hst' (by simp)
        | reject => exact absurd hst' (by simp)
        | approve_modified_fail hchk => exact absurd hst' (by simp)
        | execute_ok => exact absurd hst' (by simp)
        | execute_err => exact absurd hst' (by simp)

/-- C1 (spec-modelled): in every run starting from freshly generated SQL,
the database execution path is never invoked on SQL rejected by
`ReadOnlyGuard.check` before an explicit resume with `approved = true` —
including user-edited SQL substituted via `modified_sql`, which is
re-validated by the guard before it may execute. -/
theorem pipeline_no_execution_before_approval (sql0 : String)
    (t : List PAction) (sfin : PState)
    (hrun : Reaches (PState.generated sql0) t sfin)
    (s : String) (hviol : check s ≠ [])
    (t₁ t₂ : List PAction) (hsplit : t = t₁ ++ PAction.execute s :: t₂) :
    ∃ m, PAction.resume true m ∈ t₁ := by
  rcases reaches_execute_needs_resume hrun s t₁ t₂ hsplit hviol with
    h | ⟨-, hst⟩
  · exact h
  · exact absurd hst (by simp)

/-- Witness for C1 at a concrete run: `DELETE FROM t` is guard-rejected,
parks as pending, and executes only after the approving resume in the
trace. -/
theorem pipeline_no_execution_before_approval_witness :
    ∃ m, PAction.resume true m ∈
      [PAction.validate, PAction.resume true none] := by
  have hviol : check "DELETE FROM t" ≠ [] := by decide
  have hrun : Reaches (PState.generated "DELETE FROM t")
      [PAction.validate, PAction.resume true none,
       PAction.execute "DELETE FROM t"]
      (PState.executed "DELETE FROM t") :=
    Reaches.step (PStep.validate_fail hviol)
      (Reaches.step PStep.approve_plain
        (Reaches.step PStep.execute_ok (Reaches.refl _)))
  exact pipeline_no_execution_before_approval "DELETE FROM t" _ _ hrun
    "DELETE FROM t" hviol [PAction.validate, PAction.resume true none] []
    rfl

end Backend

end TextToSql
